import Mathlib

/-!
Verification of the pyRRIM compositing pipeline (pyRRIM/pyRRIM.py).

The development shallowly embeds the reproducible parts of the module:
the numpy `uint8` cast semantics, the `colorScheme` lookup-table builder,
the quantization of slope and differential openness inside `genRRIMImage`,
the `factorz` z-factor computation, the `openness` combiner, and the
`rrim` orchestrator.  External numerical collaborators (rvt's
`sky_view_factor` and `slope_aspect`, richdem's loader and depression
filler, cv2's per-pixel HSV-to-RGB conversion, the trigonometric `cos`)
are taken as explicit function parameters, so each theorem quantifies
over them exactly where the python code treats them as opaque library
calls.  Pixel values are rational numbers; the 8-bit casts are explicit
truncation toward zero followed by reduction modulo 256, matching
numpy's float-to-uint8 conversion.  Side effects (file writes, library
invocations) are recorded as an explicit event trace.
-/

namespace PyRRIM

/-- Floor of a rational number as an integer, computed from the reduced
numerator and denominator with integer floor division. -/
def ratFloor (x : ℚ) : ℤ :=
  Int.fdiv x.num x.den

/-- Truncation of a rational number toward zero, the rounding used by the
C-style float-to-integer conversion that `np.uint8` performs. -/
def ratTrunc (x : ℚ) : ℤ :=
  if 0 ≤ x.num then Int.fdiv x.num x.den else - Int.fdiv (- x.num) x.den

/-- Half-up rounding of a rational number; used only to state the
specification-side quantization formulas, which say `round`. -/
def ratRound (x : ℚ) : ℤ :=
  ratFloor (x + 1/2)

/-- Semantics of numpy's cast of a float to `uint8`: truncate toward
zero, then wrap modulo 256 (so 300.0 becomes 44 and -5.0 becomes 251). -/
def uint8OfRat (x : ℚ) : ℤ :=
  Int.emod (ratTrunc x) 256

/-- Rasters are lists of rows; pyRRIM only ever uses rectangular ones. -/
abbrev Mat (α : Type) := List (List α)

/-- A pixel of a 3-band 8-bit image, as produced by `colorScheme`:
hue/saturation/value before conversion, a colour triple afterwards. -/
abbrev Pix3 := ℤ × ℤ × ℤ

def pixZero : Pix3 := ((0 : ℤ), (0 : ℤ), (0 : ℤ))

/-- Entry `m[i][j]` of a matrix, with a default for out-of-range access. -/
def ent {α : Type} (d : α) (m : Mat α) (i j : ℕ) : α :=
  (m.getD i []).getD j d

/-- `m` is a rectangular `r` by `c` matrix. -/
def rect {α : Type} (m : Mat α) (r c : ℕ) : Prop :=
  m.length = r ∧ ∀ row ∈ m, row.length = c

/-- Element-wise map over a matrix (numpy broadcasting of a scalar op). -/
def mapMat {α β : Type} (f : α → β) (m : Mat α) : Mat β :=
  m.map (fun row => row.map f)

/-- Element-wise combination of two matrices of the same shape. -/
def zipMat {α β γ : Type} (f : α → β → γ) (a : Mat α) (b : Mat β) : Mat γ :=
  List.zipWith (fun ra rb => List.zipWith f ra rb) a b

/-- `DEM * -1`: every elevation value multiplied by -1 (pyRRIM.py:286). -/
def matNeg (m : Mat ℚ) : Mat ℚ :=
  mapMat (fun x => x * (-1)) m

/-- Element-wise difference of two same-shaped rasters. -/
def matSub (a b : Mat ℚ) : Mat ℚ :=
  zipMat (fun x y => x - y) a b

/-- Element-wise halving of a raster. -/
def matHalf (m : Mat ℚ) : Mat ℚ :=
  mapMat (fun x => x / 2) m

/-- Substring containment on character lists, the semantics of python's
`pat in s` for strings. -/
def hasSubstr : List Char → List Char → Bool
  | [], pat => pat.isEmpty
  | c :: rest, pat => pat.isPrefixOf (c :: rest) || hasSubstr rest pat

/-- Python's `pat in s` on strings. -/
def strHas (s pat : String) : Bool :=
  hasSubstr s.data pat.data

/-- Python's `s[:-4]`, used by pyRRIM to strip the `.tif` extension. -/
def stem (s : String) : String :=
  String.mk (s.data.take (s.data.length - 4))

/-- `np.linspace(0, 255, n)` at index `i`.  For `n ≥ 2` numpy spaces the
samples as `255*i/(n-1)` with both endpoints exact; for `n = 1` (and the
degenerate `n = 0`) numpy returns just the start value `0.0`, with no
division performed.  Modelled from numpy's documented semantics. -/
def linspace255 (n i : ℕ) : ℚ :=
  if 2 ≤ n then (255 * i) / ((n : ℚ) - 1) else 0

/-- The 8-bit HSV image built by `colorScheme` (pyRRIM.py:99-109) before
colour conversion: cell `(i, j)` has hue 0 (never written, `np.zeros`),
saturation `np.uint8(linspace(0,255,s)[i])` from the row loop and value
`np.uint8(linspace(0,255,b)[j])` from the column loop. -/
def colorSchemeHSV (s b : ℕ) : Mat Pix3 :=
  (List.range s).map (fun i =>
    (List.range b).map (fun j =>
      ((0 : ℤ), uint8OfRat (linspace255 s i), uint8OfRat (linspace255 b j))))

/-- `colorScheme` (pyRRIM.py:86-111): build the HSV image, then run the
cv2 colour conversion `cvt` on every pixel.  The band count (third
element of the python `size` tuple) is fixed to 3 through `Pix3`. -/
def colorScheme (cvt : Pix3 → Pix3) (s b : ℕ) : Mat Pix3 :=
  mapMat cvt (colorSchemeHSV s b)

/-- The per-pixel slope quantization of `genRRIMImage` (pyRRIM.py:187-188):
`inc = np.uint8(abs(slopedata)); inc[inc > s-1] = s-1`. -/
def slopeIndex (s : ℕ) (x : ℚ) : ℤ :=
  let v := uint8OfRat |x|
  if v > (s : ℤ) - 1 then (s : ℤ) - 1 else v

/-- The per-pixel openness quantization of `genRRIMImage`
(pyRRIM.py:194-196): `v = np.uint8((openness + b) / 2);
v[v < 0] = 0; v[v >= b] = b - 1`.  The `v < 0` clamp is applied after
the unsigned cast, hence can never fire. -/
def opnIndex (b : ℕ) (x : ℚ) : ℤ :=
  let v := uint8OfRat ((x + (b : ℚ)) / 2)
  let v2 := if v < 0 then 0 else v
  if v2 ≥ (b : ℤ) then (b : ℤ) - 1 else v2

/-- The slope quantization as the specification states it:
`clamp(round(|slope|), 0, saturation_range - 1)`. -/
def claimSlopeIndex (s : ℕ) (x : ℚ) : ℤ :=
  max 0 (min (ratRound |x|) ((s : ℤ) - 1))

/-- The openness quantization as the specification states it:
`clamp(round((openness + brightness_range)/2), 0, brightness_range - 1)`. -/
def claimOpnIndex (b : ℕ) (x : ℚ) : ℤ :=
  max 0 (min (ratRound ((x + (b : ℚ)) / 2)) ((b : ℤ) - 1))

/-- The HSV saturation/value channel as the specification states it:
`round(255 * i / (n - 1))`. -/
def claimChan (n i : ℕ) : ℤ :=
  ratRound ((255 * i) / ((n : ℚ) - 1))

/-- All three channels of a pixel lie in the 8-bit range [0, 255]. -/
def chanOk (p : Pix3) : Prop :=
  (0 ≤ p.1 ∧ p.1 ≤ 255) ∧ (0 ≤ p.2.1 ∧ p.2.1 ≤ 255) ∧ (0 ≤ p.2.2 ∧ p.2.2 ≤ 255)

/-- numpy fancy indexing `RRIM_map[i, j]` for one pixel coordinate pair. -/
def tableGet (m : Mat Pix3) (i j : ℤ) : Pix3 :=
  (m.getD i.toNat []).getD j.toNat pixZero

/-- `genRRIMImage` (pyRRIM.py:165-208) without its I/O: build the LUT,
quantize slope and openness, and gather `RRIM_map[inc, openness_val]`.
`color_size` is the python `(saturation, brithness, 3)` tuple. -/
def genRRIMImage (cvt : Pix3 → Pix3) (slopedata opennessArr : Mat ℚ)
    (color_size : ℕ × ℕ × ℕ) : Mat Pix3 :=
  let RRIM_map := colorScheme cvt color_size.1 color_size.2.1
  let inc := mapMat (fun x => slopeIndex color_size.1 x) slopedata
  let openness_val := mapMat (fun x => opnIndex color_size.2.1 x) opennessArr
  zipMat (fun a b => tableGet RRIM_map a b) inc openness_val

/-- The six affine geotransform coefficients of a GDAL raster. -/
structure GT where
  g0 : ℚ
  g1 : ℚ
  g2 : ℚ
  g3 : ℚ
  g4 : ℚ
  g5 : ℚ

/-- A richdem-style raster: array plus geotransform and projection. -/
structure Raster where
  data : Mat ℚ
  geotransform : GT
  projection : String

/-- `factorz` (pyRRIM.py:224-241), parametric in `np.cos` (as `cosfn`)
and `np.pi` (as `piq`): if the projection text contains `degree` and not
`PROJECTION`, return `1 / (111320 * cos(|geotransform[3]| * pi / 180))`,
else return 1. -/
def factorz (cosfn : ℚ → ℚ) (piq : ℚ) (DEM : Raster) : ℚ :=
  if strHas DEM.projection "degree" && ! strHas DEM.projection "PROJECTION" then
    1 / (111320 * cosfn (|DEM.geotransform.g3| * piq / 180))
  else 1

/-- The argument record of one `rvt.vis.sky_view_factor` call as issued
by `openness` (pyRRIM.py:274-294); the always-constant keywords
(`compute_svf=False`, `compute_asvf=False`, `compute_opns=True`,
`fill_no_data=False`, `keep_original_no_data=False`) are omitted. -/
structure SvfArgs where
  dem : Mat ℚ
  resolution : ℚ
  svf_n_dir : ℕ
  svf_r_max : ℕ
  svf_noise : ℕ
  no_data : Option ℚ

/-- Everything observable about one run of `openness`: the two
`sky_view_factor` argument records, their results, the files written,
and the returned value.  `result` is `none` exactly when the python
function falls off the end of its `if isave:` block and returns `None`. -/
structure OpennessOut where
  posCall : SvfArgs
  negCall : SvfArgs
  pos : Mat ℚ
  neg : Mat ℚ
  saves : List String
  result : Option (Mat ℚ)

/-- `openness` (pyRRIM.py:245-310), parametric in the external
`sky_view_factor` implementation `svf`.  Positive openness is computed on
the DEM, negative openness on the DEM times -1, both at resolution
`abs(geotransform[1])` with the same direction/radius/noise/no-data
arguments; differential openness is `(pos - neg) / 2`.  The `return`
statement of the source is indented under `if isave:`, so the
`isave = false` path returns `None`. -/
def openness (svf : SvfArgs → Mat ℚ) (DEM : Raster)
    (svf_n_dir svf_noise svf_r_max : ℕ) (demname : String)
    (nodatavalue : Option ℚ) (isave : Bool) : OpennessOut :=
  let a1 : SvfArgs :=
    ⟨DEM.data, |DEM.geotransform.g1|, svf_n_dir, svf_r_max, svf_noise, nodatavalue⟩
  let pos_opns_arr := svf a1
  let DEM_neg_opns := matNeg DEM.data
  let a2 : SvfArgs :=
    ⟨DEM_neg_opns, |DEM.geotransform.g1|, svf_n_dir, svf_r_max, svf_noise, nodatavalue⟩
  let neg_opns_arr := svf a2
  let opennessMat := matHalf (matSub pos_opns_arr neg_opns_arr)
  if isave then
    ⟨a1, a2, pos_opns_arr, neg_opns_arr,
     [stem demname ++ "_pos_opns.tif", stem demname ++ "_neg_opns.tif",
      stem demname ++ "_diff_opns.tif"],
     some opennessMat⟩
  else
    ⟨a1, a2, pos_opns_arr, neg_opns_arr, [], none⟩

/-- The argument record of the `rvt.vis.slope_aspect` call issued by
`rrim` (pyRRIM.py:405-412); constant keywords are omitted. -/
structure SlopeArgs where
  dem : Mat ℚ
  resolution_x : ℚ
  resolution_y : ℚ
  output_units : String
  ve_factor : ℚ
  no_data : Option ℚ

/-- Observable pipeline steps of one `rrim` run, in program order. -/
inductive Event where
  | load (path : String) (no_data : Option ℚ)
  | fillDep
  | slopeCall (args : SlopeArgs)
  | svfCall (args : SvfArgs)
  | save (path : String)
  | composite (path : String)

/-- The external collaborators `rrim` sequences: file-existence test,
GDAL loader, depression filler, slope and openness computations, `cos`
and `pi`, and the cv2 colour conversion. -/
structure Collab where
  fs : String → Bool
  load : String → Option ℚ → Raster
  fillDepressions : Raster → Raster
  slope : SlopeArgs → Mat ℚ
  svf : SvfArgs → Mat ℚ
  cosfn : ℚ → ℚ
  piq : ℚ
  cvt : Pix3 → Pix3

/-- A finished `rrim` run: its event trace and either the composite
image or the raised error's message. -/
structure RrimResult where
  events : List Event
  outcome : Except String (Mat Pix3)

/-- The `NameError` message raised at pyRRIM.py:371 for a missing DEM. -/
def errMsg (demname : String) : String :=
  "\x1b[91mERROR:\x1b[00m F** input raster " ++ demname ++ " DEM does not exist"

/-- The `TypeError` python raises downstream when `openness` has
returned `None` (isave false) and `genRRIMImage` receives it. -/
def typeErrMsg : String :=
  "TypeError: openness returned None"

/-- `rrim` (pyRRIM.py:314-431): check the DEM path (raising a `NameError`
before anything else if it is missing), load the DEM, either reload
cached slope/openness rasters (when both exist and `ikeep` is set) or
compute them from scratch - optionally filling depressions, calling
`slope_aspect` with `ve_factor = factorz(DEM)` and `no_data = None`
(the `nodatavalue` keyword is commented out in the source), then calling
`openness` with the user's `nodatavalue` - and finally composite via
`genRRIMImage`. -/
def rrim (C : Collab) (demname : String) (nodatavalue : ℚ) (demfill : Bool)
    (svf_n_dir svf_r_max svf_noise : ℕ) (saturation brithness : ℕ)
    (isave ikeep : Bool) : RrimResult :=
  let rrimFile := stem demname ++ "_rrim.tif"
  let color_size := (saturation, brithness, 3)
  if C.fs demname then
    let DEM := C.load demname (some nodatavalue)
    if C.fs (stem demname ++ "_slope.tif") && C.fs (stem demname ++ "_diff_opns.tif")
        && ikeep then
      let slopeMat := C.load (stem demname ++ "_slope.tif") (some nodatavalue)
      let opennessMat := C.load (stem demname ++ "_diff_opns.tif") (some nodatavalue)
      ⟨[Event.load demname (some nodatavalue),
        Event.load (stem demname ++ "_slope.tif") (some nodatavalue),
        Event.load (stem demname ++ "_diff_opns.tif") (some nodatavalue),
        Event.composite rrimFile],
       Except.ok (genRRIMImage C.cvt slopeMat.data opennessMat.data color_size)⟩
    else
      let DEM2 := if demfill then C.fillDepressions DEM else DEM
      let sargs : SlopeArgs :=
        ⟨DEM2.data, |DEM2.geotransform.g1|, |DEM2.geotransform.g5|, "degree",
         factorz C.cosfn C.piq DEM2, none⟩
      let slopeMat := C.slope sargs
      let o := openness C.svf DEM2 svf_n_dir svf_noise svf_r_max demname
        (some nodatavalue) isave
      let evs := [Event.load demname (some nodatavalue)]
        ++ (if demfill then [Event.fillDep] else [])
        ++ [Event.slopeCall sargs]
        ++ (if isave then [Event.save (stem demname ++ "_slope.tif")] else [])
        ++ [Event.svfCall o.posCall, Event.svfCall o.negCall]
        ++ o.saves.map Event.save
      match o.result with
      | some opennessMat =>
        ⟨evs ++ [Event.composite rrimFile],
         Except.ok (genRRIMImage C.cvt slopeMat opennessMat color_size)⟩
      | none => ⟨evs, Except.error typeErrMsg⟩
  else
    ⟨[], Except.error (errMsg demname)⟩

/-- Extracts the `no_data` argument of a slope-computation event. -/
def evSlopeND : Event → Option (Option ℚ)
  | Event.slopeCall a => some a.no_data
  | _ => none

/-- Extracts the `no_data` argument of a raster-load event. -/
def evLoadND : Event → Option (Option ℚ)
  | Event.load _ nd => some nd
  | _ => none

/-- Extracts the `no_data` argument of a `sky_view_factor` event. -/
def evSvfND : Event → Option (Option ℚ)
  | Event.svfCall a => some a.no_data
  | _ => none

/-- The event trace of a `rrim` run. -/
def rrimEvents (C : Collab) (demname : String) (nodatavalue : ℚ) (demfill : Bool)
    (svf_n_dir svf_r_max svf_noise : ℕ) (saturation brithness : ℕ)
    (isave ikeep : Bool) : List Event :=
  (rrim C demname nodatavalue demfill svf_n_dir svf_r_max svf_noise
    saturation brithness isave ikeep).events

theorem uint8OfRat_nonneg (x : ℚ) : 0 ≤ uint8OfRat x :=
  Int.emod_nonneg _ (by decide)

theorem uint8OfRat_lt (x : ℚ) : uint8OfRat x < 256 :=
  Int.emod_lt_of_pos _ (by decide)

theorem slopeIndex_nonneg (s : ℕ) (x : ℚ) (hs : 1 ≤ s) : 0 ≤ slopeIndex s x := by
  simp only [slopeIndex]
  have h0 := uint8OfRat_nonneg |x|
  have hs' : (1 : ℤ) ≤ (s : ℤ) := by exact_mod_cast hs
  split <;> omega

theorem slopeIndex_le (s : ℕ) (x : ℚ) : slopeIndex s x ≤ (s : ℤ) - 1 := by
  simp only [slopeIndex]
  split <;> omega

theorem opnIndex_nonneg (b : ℕ) (x : ℚ) (hb : 1 ≤ b) : 0 ≤ opnIndex b x := by
  simp only [opnIndex]
  have h0 := uint8OfRat_nonneg ((x + (b : ℚ)) / 2)
  have hb' : (1 : ℤ) ≤ (b : ℤ) := by exact_mod_cast hb
  split <;> split <;> omega

theorem opnIndex_le (b : ℕ) (x : ℚ) (hb : 1 ≤ b) : opnIndex b x ≤ (b : ℤ) - 1 := by
  simp only [opnIndex]
  have h0 := uint8OfRat_nonneg ((x + (b : ℚ)) / 2)
  have hb' : (1 : ℤ) ≤ (b : ℤ) := by exact_mod_cast hb
  split <;> split <;> omega

theorem getD_map {α β : Type} (f : α → β) (d : α) (l : List α) (j : ℕ) :
    (l.map f).getD j (f d) = f (l.getD j d) := by
  simp only [List.getD_eq_getElem?_getD, List.getElem?_map]
  cases l[j]? <;> simp

theorem getD_row_mapMat {α β : Type} (f : α → β) (m : Mat α) (i : ℕ) :
    (mapMat f m).getD i [] = (m.getD i []).map f := by
  simp only [mapMat, List.getD_eq_getElem?_getD, List.getElem?_map]
  cases m[i]? <;> simp

theorem getD_row_zipMat {α β γ : Type} (f : α → β → γ) (a : Mat α) (b : Mat β) (i : ℕ) :
    (zipMat f a b).getD i [] = List.zipWith f (a.getD i []) (b.getD i []) := by
  simp only [zipMat, List.getD_eq_getElem?_getD, List.getElem?_zipWith]
  cases a[i]? <;> cases b[i]? <;> simp

theorem getD_zipWith {α β γ : Type} (f : α → β → γ) (da : α) (db : β) (dg : γ)
    (ra : List α) (rb : List β) (j : ℕ) (hja : j < ra.length) (hjb : j < rb.length) :
    (List.zipWith f ra rb).getD j dg = f (ra.getD j da) (rb.getD j db) := by
  simp only [List.getD_eq_getElem?_getD, List.getElem?_zipWith,
    List.getElem?_eq_getElem hja, List.getElem?_eq_getElem hjb]
  simp

theorem rect_row_length {α : Type} {m : Mat α} {r c : ℕ} (hm : rect m r c)
    {i : ℕ} (hi : i < r) : (m.getD i []).length = c := by
  obtain ⟨hlen, hrows⟩ := hm
  have hilen : i < m.length := by omega
  have hrow : m.getD i [] = m[i] := by
    simp [List.getD_eq_getElem?_getD, List.getElem?_eq_getElem hilen]
  rw [hrow]
  exact hrows _ (List.getElem_mem hilen)

theorem rect_mapMat {α β : Type} (f : α → β) {m : Mat α} {r c : ℕ}
    (hm : rect m r c) : rect (mapMat f m) r c := by
  obtain ⟨hlen, hrows⟩ := hm
  constructor
  · simp [mapMat, hlen]
  · intro row hrow
    simp only [mapMat, List.mem_map] at hrow
    obtain ⟨row₀, h₀, rfl⟩ := hrow
    simp [hrows _ h₀]

theorem rect_zipMat {α β γ : Type} (f : α → β → γ) {a : Mat α} {b : Mat β} {r c : ℕ}
    (ha : rect a r c) (hb : rect b r c) : rect (zipMat f a b) r c := by
  constructor
  · simp [zipMat, ha.1, hb.1]
  · intro row hrow
    rw [List.mem_iff_getElem] at hrow
    obtain ⟨i, hi, hrow⟩ := hrow
    simp only [zipMat] at hi hrow
    rw [List.getElem_zipWith] at hrow
    have hia : i < a.length := by
      rw [List.length_zipWith] at hi; omega
    have hib : i < b.length := by
      rw [List.length_zipWith] at hi; omega
    subst hrow
    have hra : (a[i]).length = c := ha.2 _ (List.getElem_mem hia)
    have hrb : (b[i]).length = c := hb.2 _ (List.getElem_mem hib)
    simp [hra, hrb]

theorem ent_mapMat {α β : Type} (f : α → β) (d : α) (m : Mat α) (i j : ℕ) :
    ent (f d) (mapMat f m) i j = f (ent d m i j) := by
  unfold ent
  rw [getD_row_mapMat, getD_map]

theorem hasSubstr_nil_pat (s : List Char) : hasSubstr s [] = true := by
  induction s with
  | nil => rfl
  | cons c rest ih => simp [hasSubstr, List.isPrefixOf]

theorem hasSubstr_append (pre pat post : List Char) :
    hasSubstr (pre ++ (pat ++ post)) pat = true := by
  induction pre with
  | nil =>
    cases pat with
    | nil => simpa using hasSubstr_nil_pat post
    | cons c t =>
      have hpre : (c :: t).isPrefixOf ((c :: t) ++ post) = true := by
        rw [List.isPrefixOf_iff_prefix]
        exact List.prefix_append _ _
      simp [hasSubstr, hpre]
  | cons a pre ih =>
    simp [hasSubstr, ih]

theorem ent_colorSchemeHSV (s b i j : ℕ) (hi : i < s) (hj : j < b) :
    ent pixZero (colorSchemeHSV s b) i j =
      ((0 : ℤ), uint8OfRat (linspace255 s i), uint8OfRat (linspace255 b j)) := by
  unfold colorSchemeHSV ent
  simp only [List.getD_eq_getElem?_getD, List.getElem?_map, List.getElem?_range hi,
    List.getElem?_range hj, Option.map_some', Option.getD_some]

theorem rect_colorSchemeHSV (s b : ℕ) : rect (colorSchemeHSV s b) s b := by
  constructor
  · simp [colorSchemeHSV]
  · intro row hrow
    simp only [colorSchemeHSV, List.mem_map] at hrow
    obtain ⟨i, _, rfl⟩ := hrow
    simp

theorem linspace255_zero (n : ℕ) : linspace255 n 0 = 0 := by
  unfold linspace255
  split <;> simp

theorem linspace255_last (n : ℕ) (hn : 2 ≤ n) : linspace255 n (n - 1) = 255 := by
  unfold linspace255
  rw [if_pos hn]
  have h1 : (1 : ℕ) ≤ n := by omega
  have hcast : ((n - 1 : ℕ) : ℚ) = (n : ℚ) - 1 := by
    push_cast [h1]; ring
  have hne : (n : ℚ) - 1 ≠ 0 := by
    have : (2 : ℚ) ≤ (n : ℚ) := by exact_mod_cast hn
    intro h
    have : (n : ℚ) = 1 := by linarith
    linarith
  rw [hcast, mul_div_assoc, div_self hne, mul_one]

theorem uint8OfRat_zero : uint8OfRat 0 = 0 := by
  decide

theorem uint8OfRat_255 : uint8OfRat 255 = 255 := by
  with_unfolding_all decide

theorem ent_default_eq {α : Type} (d d' : α) (m : Mat α) (r c i j : ℕ)
    (hm : rect m r c) (hi : i < r) (hj : j < c) : ent d m i j = ent d' m i j := by
  unfold ent
  have hr : (m.getD i []).length = c := rect_row_length hm hi
  have hj' : j < (m.getD i []).length := by omega
  rw [List.getD_eq_getElem?_getD (m.getD i []) j d,
    List.getD_eq_getElem?_getD (m.getD i []) j d',
    List.getElem?_eq_getElem hj']
  rfl

/-- C1: the spec says the per-pixel slope index is
`clamp(round(|slope|), 0, saturation_range-1)` and that out-of-range
slopes saturate without wrapping.  Counterexamples: at `slope = 5.7`
with `saturation_range = 90` the code truncates to index 5 where the
spec formula rounds to 6; at `slope = 300` the `np.uint8` cast wraps
modulo 256 to index 44 where the spec formula saturates to 89. -/
theorem C1_counterexample :
    slopeIndex 90 (57/10) = 5 ∧ claimSlopeIndex 90 (57/10) = 6 ∧
    slopeIndex 90 300 = 44 ∧ claimSlopeIndex 90 300 = 89 := by
  refine ⟨?_, ?_, ?_, ?_⟩ <;> with_unfolding_all decide

/-- C1 (amended): for `saturation_range ≥ 1`, the per-pixel slope index
equals `min(trunc(|slope|) mod 256, saturation_range-1)`: the absolute
slope is truncated toward zero (not rounded) and wrapped modulo 256 by
the 8-bit cast before the upper clamp, so truncated values of 256 or
more wrap around rather than saturating; the final index nonetheless
always lies in `[0, saturation_range-1]` and is never negative. -/
theorem C1_slope_index_trunc_wrap (s : ℕ) (x : ℚ) (hs : 1 ≤ s) :
    slopeIndex s x = min (Int.emod (ratTrunc |x|) 256) ((s : ℤ) - 1) ∧
    0 ≤ slopeIndex s x ∧ slopeIndex s x ≤ (s : ℤ) - 1 := by
  refine ⟨?_, slopeIndex_nonneg s x hs, slopeIndex_le s x⟩
  simp only [slopeIndex, uint8OfRat]
  rw [min_def]
  split <;> split <;> omega

theorem C1_witness :
    1 ≤ 90 ∧
    (slopeIndex 90 (-57/10) = min (Int.emod (ratTrunc |(-57/10 : ℚ)|) 256) ((90 : ℤ) - 1) ∧
     0 ≤ slopeIndex 90 (-57/10) ∧ slopeIndex 90 (-57/10) ≤ (90 : ℤ) - 1) :=
  ⟨by decide, C1_slope_index_trunc_wrap 90 (-57/10) (by decide)⟩

/-- C2: with `brithness = 40` (the module's own `__main__` example) and
a differential openness of -50, the intended index is 0 (the claim's
`clamp(round((-50+40)/2), 0, 39)`), but the code's `np.uint8` cast wraps
the negative intermediate -5 to 251, after which the dead `< 0` guard
cannot fire and the `>= brithness` clamp maps the pixel to 39, the
brightest index instead of the darkest. -/
theorem C2_negative_openness_wraps :
    opnIndex 40 (-50) = 39 ∧ claimOpnIndex 40 (-50) = 0 := by
  refine ⟨?_, ?_⟩ <;> with_unfolding_all decide

/-- C3: the spec says LUT cell `(i, j)` is built from HSV saturation
`round(255*i/(s-1))`.  At `s = 3, b = 2` the cell `(1, 0)` of the HSV
image carries saturation `np.uint8(127.5) = 127`, while the spec's
rounding formula gives 128. -/
theorem C3_counterexample :
    ent pixZero (colorSchemeHSV 3 2) 1 0 = ((0 : ℤ), 127, 0) ∧ claimChan 3 1 = 128 := by
  refine ⟨?_, ?_⟩ <;> with_unfolding_all decide

/-- C3 (amended): for `saturation_range ≥ 2` and `brightness_range ≥ 2`,
the lookup table built by `colorScheme` is the per-pixel HSV-to-RGB
conversion of an 8-bit HSV image in which cell `(i, j)` has hue 0,
saturation `trunc(255*i/(saturation_range-1))` and value
`trunc(255*j/(brightness_range-1))` (truncation, not rounding); row 0
has saturation 0, row `saturation_range-1` has saturation 255, column 0
has value 0, column `brightness_range-1` has value 255, the table has
`saturation_range` rows of `brightness_range` 3-channel pixels, and
(when the conversion produces 8-bit output) all entries lie in
`[0, 255]`. -/
theorem C3_colorScheme_lut (cvt : Pix3 → Pix3) (s b i j : ℕ)
    (hs : 2 ≤ s) (hb : 2 ≤ b) (hi : i < s) (hj : j < b)
    (hcvt : ∀ p : Pix3, chanOk (cvt p)) :
    (colorScheme cvt s b).length = s ∧
    (∀ row ∈ colorScheme cvt s b, row.length = b) ∧
    ent pixZero (colorScheme cvt s b) i j =
      cvt ((0 : ℤ), uint8OfRat (linspace255 s i), uint8OfRat (linspace255 b j)) ∧
    uint8OfRat (linspace255 s 0) = 0 ∧
    uint8OfRat (linspace255 s (s - 1)) = 255 ∧
    uint8OfRat (linspace255 b 0) = 0 ∧
    uint8OfRat (linspace255 b (b - 1)) = 255 ∧
    ∀ row ∈ colorScheme cvt s b, ∀ p ∈ row, chanOk p := by
  have hrect : rect (colorScheme cvt s b) s b :=
    rect_mapMat cvt (rect_colorSchemeHSV s b)
  refine ⟨hrect.1, hrect.2, ?_, ?_, ?_, ?_, ?_, ?_⟩
  · rw [ent_default_eq pixZero (cvt pixZero) _ s b i j hrect hi hj]
    rw [colorScheme, ent_mapMat, ent_colorSchemeHSV s b i j hi hj]
  · rw [linspace255_zero, uint8OfRat_zero]
  · rw [linspace255_last s hs, uint8OfRat_255]
  · rw [linspace255_zero, uint8OfRat_zero]
  · rw [linspace255_last b hb, uint8OfRat_255]
  · intro row hrow p hp
    simp only [colorScheme, mapMat, List.mem_map] at hrow
    obtain ⟨row₀, _, rfl⟩ := hrow
    simp only [List.mem_map] at hp
    obtain ⟨q, _, rfl⟩ := hp
    exact hcvt q

theorem C3_witness :
    2 ≤ 3 ∧ 2 ≤ 2 ∧ 1 < 3 ∧ 0 < 2 ∧ (∀ p : Pix3, chanOk ((fun _ => pixZero) p)) ∧
    ((colorScheme (fun _ => pixZero) 3 2).length = 3 ∧
     (∀ row ∈ colorScheme (fun _ => pixZero) 3 2, row.length = 2) ∧
     ent pixZero (colorScheme (fun _ => pixZero) 3 2) 1 0 =
       (fun _ => pixZero) ((0 : ℤ), uint8OfRat (linspace255 3 1), uint8OfRat (linspace255 2 0)) ∧
     uint8OfRat (linspace255 3 0) = 0 ∧
     uint8OfRat (linspace255 3 (3 - 1)) = 255 ∧
     uint8OfRat (linspace255 2 0) = 0 ∧
     uint8OfRat (linspace255 2 (2 - 1)) = 255 ∧
     ∀ row ∈ colorScheme (fun _ => pixZero) 3 2, ∀ p ∈ row, chanOk p) :=
  ⟨by decide, by decide, by decide, by decide, fun _ => (by norm_num [chanOk, pixZero] : chanOk pixZero),
   C3_colorScheme_lut (fun _ => pixZero) 3 2 1 0 (by decide) (by decide)
     (by decide) (by decide) (fun _ => (by norm_num [chanOk, pixZero] : chanOk pixZero))⟩

/-- C4: the spec says `colorScheme` special-cases
`saturation_range == 1` by assigning the single row the channel value
255.  In fact there is no special case in the code: `np.linspace(0, 255, 1)`
returns `[0.0]`, so the single row's saturation channel is 0, not 255. -/
theorem C4_counterexample :
    (ent pixZero (colorSchemeHSV 1 2) 0 0).2.1 = 0 ∧
    (ent pixZero (colorSchemeHSV 1 2) 0 0).2.1 ≠ 255 := by
  refine ⟨?_, ?_⟩ <;> with_unfolding_all decide

/-- C4 (amended): when `saturation_range == 1` (resp.
`brightness_range == 1`) `colorScheme` performs no special-casing and no
division by zero occurs: numpy's `linspace(0, 255, 1)` returns just the
start value `[0.0]`, so every cell of the single row carries saturation
channel 0 (resp. every cell of the single column carries value channel
0), not the maximum 255. -/
theorem C4_no_special_case (b s j i : ℕ) (hj : j < b) (hi : i < s) :
    (ent pixZero (colorSchemeHSV 1 b) 0 j).2.1 = 0 ∧
    (ent pixZero (colorSchemeHSV s 1) i 0).2.2 = 0 := by
  constructor
  · rw [ent_colorSchemeHSV 1 b 0 j (by omega) hj]
    simp [linspace255, uint8OfRat_zero]
  · rw [ent_colorSchemeHSV s 1 i 0 hi (by omega)]
    simp [linspace255, uint8OfRat_zero]

theorem C4_witness :
    0 < 2 ∧ 1 < 3 ∧
    ((ent pixZero (colorSchemeHSV 1 2) 0 0).2.1 = 0 ∧
     (ent pixZero (colorSchemeHSV 3 1) 1 0).2.2 = 0) :=
  ⟨by decide, by decide, C4_no_special_case 2 3 0 1 (by decide) (by decide)⟩

/-- C5: for every DEM raster and every parameter set, the openness
combiner issues its first `sky_view_factor` call on the DEM as-is and
its second on the DEM with every value multiplied by -1; both calls
carry the same direction count, search radius, noise level, no-data
value and resolution `abs(geotransform[1])`; and the returned raster is
the differential openness `(positive - negative) / 2`. -/
theorem C5_openness_differential (svf : SvfArgs → Mat ℚ) (DEM : Raster)
    (n_dir noise r_max : ℕ) (demname : String) (nd : Option ℚ) :
    (openness svf DEM n_dir noise r_max demname nd true).posCall.dem = DEM.data ∧
    (openness svf DEM n_dir noise r_max demname nd true).negCall.dem = matNeg DEM.data ∧
    (openness svf DEM n_dir noise r_max demname nd true).posCall.resolution
      = |DEM.geotransform.g1| ∧
    (openness svf DEM n_dir noise r_max demname nd true).negCall.resolution
      = (openness svf DEM n_dir noise r_max demname nd true).posCall.resolution ∧
    (openness svf DEM n_dir noise r_max demname nd true).negCall.svf_n_dir
      = (openness svf DEM n_dir noise r_max demname nd true).posCall.svf_n_dir ∧
    (openness svf DEM n_dir noise r_max demname nd true).negCall.svf_r_max
      = (openness svf DEM n_dir noise r_max demname nd true).posCall.svf_r_max ∧
    (openness svf DEM n_dir noise r_max demname nd true).negCall.svf_noise
      = (openness svf DEM n_dir noise r_max demname nd true).posCall.svf_noise ∧
    (openness svf DEM n_dir noise r_max demname nd true).negCall.no_data
      = (openness svf DEM n_dir noise r_max demname nd true).posCall.no_data ∧
    (openness svf DEM n_dir noise r_max demname nd true).posCall.svf_n_dir = n_dir ∧
    (openness svf DEM n_dir noise r_max demname nd true).posCall.svf_r_max = r_max ∧
    (openness svf DEM n_dir noise r_max demname nd true).posCall.svf_noise = noise ∧
    (openness svf DEM n_dir noise r_max demname nd true).posCall.no_data = nd ∧
    (openness svf DEM n_dir noise r_max demname nd true).result =
      some (matHalf (matSub
        (svf (openness svf DEM n_dir noise r_max demname nd true).posCall)
        (svf (openness svf DEM n_dir noise r_max demname nd true).negCall))) :=
  ⟨rfl, rfl, rfl, rfl, rfl, rfl, rfl, rfl, rfl, rfl, rfl, rfl, rfl⟩

/-- C7: the claim says `openness` returns the differential openness
raster for every value of `isave`; in the code the `return opennessMat`
statement is indented inside the `if isave:` block, so with
`isave = False` the function returns `None` (contradicting its own
docstring `Returns: opennessMat`). -/
theorem C7_openness_isave_false_returns_none :
    (openness (fun _ => [[0]]) ⟨[[1]], ⟨0, 1, 0, 0, 0, 1⟩, "meters"⟩
      8 0 20 "dem.tif" (some (-9999)) false).result = none :=
  rfl

/-- C6: `factorz` returns `1 / (111320 * cos(|geotransform[3]| * pi / 180))`
exactly when the projection text contains `degree` and not `PROJECTION`,
returns 1 in every other case regardless of the geotransform, and in
particular returns `1/111320` for a degree projection at latitude 0
(using `cos 0 = 1`). -/
theorem C6_factorz (cosfn : ℚ → ℚ) (piq : ℚ) (DEM : Raster)
    (hcos : cosfn 0 = 1) :
    ((strHas DEM.projection "degree" && ! strHas DEM.projection "PROJECTION") = true →
      factorz cosfn piq DEM = 1 / (111320 * cosfn (|DEM.geotransform.g3| * piq / 180))) ∧
    ((strHas DEM.projection "degree" && ! strHas DEM.projection "PROJECTION") = false →
      factorz cosfn piq DEM = 1) ∧
    ((strHas DEM.projection "degree" && ! strHas DEM.projection "PROJECTION") = true →
      DEM.geotransform.g3 = 0 → factorz cosfn piq DEM = 1 / 111320) := by
  refine ⟨fun h => ?_, fun h => ?_, fun h h3 => ?_⟩
  · simp [factorz, h]
  · simp [factorz, h]
  · rw [factorz, if_pos h, h3]
    rw [abs_zero, zero_mul, zero_div, hcos, mul_one]

theorem C6_witness :
    factorz (fun _ => 1) 3 ⟨[[0]], ⟨0, 1, 0, 0, 0, 1⟩, "GEOGCS unit degree"⟩ = 1 / 111320 :=
  (C6_factorz (fun _ => 1) 3 ⟨[[0]], ⟨0, 1, 0, 0, 0, 1⟩, "GEOGCS unit degree"⟩ rfl).2.2
    (by decide) rfl

/-- C8: whenever the file-existence check fails on the input DEM path,
`rrim` stops with the `NameError` message, that message contains the
offending path, and no loading, filling, slope, openness or compositing
event has happened (the trace is empty). -/
theorem C8_missing_dem (C : Collab) (demname : String) (nodatavalue : ℚ)
    (demfill : Bool) (n_dir r_max noise saturation brithness : ℕ)
    (isave ikeep : Bool) (hfs : C.fs demname = false) :
    rrim C demname nodatavalue demfill n_dir r_max noise saturation brithness
      isave ikeep = ⟨[], Except.error (errMsg demname)⟩ ∧
    hasSubstr (errMsg demname).data demname.data = true := by
  constructor
  · simp [rrim, hfs]
  · have hdata : (errMsg demname).data =
        ("\x1b[91mERROR:\x1b[00m F** input raster ").data ++
          (demname.data ++ (" DEM does not exist").data) := by
      simp [errMsg]
    rw [hdata]
    exact hasSubstr_append _ _ _

theorem C8_witness :
    rrim ⟨fun _ => false, fun _ _ => ⟨[[1]], ⟨0, 1, 0, 0, 0, 1⟩, "m"⟩, fun r => r,
        fun _ => [[2]], fun _ => [[3]], fun x => x, 3, fun p => p⟩
      "missing.tif" (-9999) false 8 10 0 90 150 true false =
      ⟨[], Except.error (errMsg "missing.tif")⟩ ∧
    hasSubstr (errMsg "missing.tif").data ("missing.tif").data = true :=
  C8_missing_dem ⟨fun _ => false, fun _ _ => ⟨[[1]], ⟨0, 1, 0, 0, 0, 1⟩, "m"⟩, fun r => r,
      fun _ => [[2]], fun _ => [[3]], fun x => x, 3, fun p => p⟩
    "missing.tif" (-9999) false 8 10 0 90 150 true false rfl

/-- C9: for rectangular inputs of the DEM's shape, the composite built
by `genRRIMImage` is again a raster of that shape, each of its pixels is
the lookup-table entry selected by the two quantized indices, and for
`saturation_range ≥ 1` and `brightness_range ≥ 1` both indices are
genuine in-range coordinates of the `saturation_range` by
`brightness_range` table. -/
theorem C9_composite_gather (cvt : Pix3 → Pix3) (dem slope opn : Mat ℚ)
    (r c s b i j : ℕ)
    (hdem : rect dem r c) (hslope : rect slope r c) (hopn : rect opn r c)
    (hs : 1 ≤ s) (hb : 1 ≤ b) (hi : i < r) (hj : j < c) :
    rect (genRRIMImage cvt slope opn (s, b, 3)) r c ∧
    ent pixZero (genRRIMImage cvt slope opn (s, b, 3)) i j =
      tableGet (colorScheme cvt s b)
        (slopeIndex s (ent 0 slope i j)) (opnIndex b (ent 0 opn i j)) ∧
    0 ≤ slopeIndex s (ent 0 slope i j) ∧ slopeIndex s (ent 0 slope i j) < (s : ℤ) ∧
    0 ≤ opnIndex b (ent 0 opn i j) ∧ opnIndex b (ent 0 opn i j) < (b : ℤ) := by
  have hs' : (1 : ℤ) ≤ (s : ℤ) := by exact_mod_cast hs
  have hb' : (1 : ℤ) ≤ (b : ℤ) := by exact_mod_cast hb
  have hgen : genRRIMImage cvt slope opn (s, b, 3) =
      zipMat (fun p q => tableGet (colorScheme cvt s b) p q)
        (mapMat (fun x => slopeIndex s x) slope)
        (mapMat (fun x => opnIndex b x) opn) := rfl
  refine ⟨?_, ?_, slopeIndex_nonneg s _ hs, ?_, opnIndex_nonneg b _ hb, ?_⟩
  · rw [hgen]
    exact rect_zipMat _ (rect_mapMat _ hslope) (rect_mapMat _ hopn)
  · rw [hgen]
    have hja : j < ((mapMat (fun x => slopeIndex s x) slope).getD i []).length := by
      rw [rect_row_length (rect_mapMat _ hslope) hi]; omega
    have hjb : j < ((mapMat (fun x => opnIndex b x) opn).getD i []).length := by
      rw [rect_row_length (rect_mapMat _ hopn) hi]; omega
    unfold ent
    rw [getD_row_zipMat]
    rw [getD_zipWith _ (slopeIndex s 0) (opnIndex b 0) pixZero _ _ j hja hjb]
    rw [getD_row_mapMat, getD_row_mapMat, getD_map, getD_map]
  · have := slopeIndex_le s (ent 0 slope i j); omega
  · have := opnIndex_le b (ent 0 opn i j) hb; omega

theorem C9_witness :
    rect (genRRIMImage (fun p => p) [[0]] [[0]] (1, 1, 3)) 1 1 ∧
    ent pixZero (genRRIMImage (fun p => p) [[0]] [[0]] (1, 1, 3)) 0 0 =
      tableGet (colorScheme (fun p => p) 1 1)
        (slopeIndex 1 (ent 0 [[0]] 0 0)) (opnIndex 1 (ent 0 [[0]] 0 0)) ∧
    0 ≤ slopeIndex 1 (ent 0 [[0]] 0 0) ∧ slopeIndex 1 (ent 0 [[0]] 0 0) < (1 : ℤ) ∧
    0 ≤ opnIndex 1 (ent 0 [[0]] 0 0) ∧ opnIndex 1 (ent 0 [[0]] 0 0) < (1 : ℤ) :=
  C9_composite_gather (fun p => p) [[0]] [[0]] [[0]] 1 1 1 1 0 0
    ⟨by decide, by decide⟩ ⟨by decide, by decide⟩ ⟨by decide, by decide⟩
    (by decide) (by decide) (by decide) (by decide)

/-- C10: in every from-scratch run of `rrim` (DEM present, cache branch
not taken), the single slope computation receives `no_data = None` while
the single DEM load and both openness (`sky_view_factor`) calls receive
the user's `nodatavalue`. -/
theorem C10_slope_nodata_none (C : Collab) (demname : String) (nodatavalue : ℚ)
    (demfill : Bool) (n_dir r_max noise saturation brithness : ℕ)
    (isave ikeep : Bool) (hfs : C.fs demname = true)
    (hcache : (C.fs (stem demname ++ "_slope.tif")
      && C.fs (stem demname ++ "_diff_opns.tif") && ikeep) = false) :
    (rrimEvents C demname nodatavalue demfill n_dir r_max noise saturation
      brithness isave ikeep).filterMap evSlopeND = [none] ∧
    (rrimEvents C demname nodatavalue demfill n_dir r_max noise saturation
      brithness isave ikeep).filterMap evLoadND = [some nodatavalue] ∧
    (rrimEvents C demname nodatavalue demfill n_dir r_max noise saturation
      brithness isave ikeep).filterMap evSvfND =
      [some nodatavalue, some nodatavalue] := by
  unfold rrimEvents rrim
  rw [if_pos hfs, if_neg (by simp [hcache])]
  cases isave <;> cases demfill <;>
    simp [openness, evSlopeND, evLoadND, evSvfND, List.filterMap_append,
      List.filterMap_cons]

theorem C10_witness :
    (rrimEvents ⟨fun _ => true, fun _ _ => ⟨[[1]], ⟨0, 1, 0, 0, 0, 1⟩, "m"⟩, fun r => r,
        fun _ => [[2]], fun _ => [[3]], fun x => x, 3, fun p => p⟩
      "dem.tif" (-9999) false 8 10 0 90 150 true false).filterMap evSlopeND = [none] ∧
    (rrimEvents ⟨fun _ => true, fun _ _ => ⟨[[1]], ⟨0, 1, 0, 0, 0, 1⟩, "m"⟩, fun r => r,
        fun _ => [[2]], fun _ => [[3]], fun x => x, 3, fun p => p⟩
      "dem.tif" (-9999) false 8 10 0 90 150 true false).filterMap evLoadND
      = [some (-9999)] ∧
    (rrimEvents ⟨fun _ => true, fun _ _ => ⟨[[1]], ⟨0, 1, 0, 0, 0, 1⟩, "m"⟩, fun r => r,
        fun _ => [[2]], fun _ => [[3]], fun x => x, 3, fun p => p⟩
      "dem.tif" (-9999) false 8 10 0 90 150 true false).filterMap evSvfND
      = [some (-9999), some (-9999)] :=
  C10_slope_nodata_none ⟨fun _ => true, fun _ _ => ⟨[[1]], ⟨0, 1, 0, 0, 0, 1⟩, "m"⟩,
      fun r => r, fun _ => [[2]], fun _ => [[3]], fun x => x, 3, fun p => p⟩
    "dem.tif" (-9999) false 8 10 0 90 150 true false rfl rfl

end PyRRIM
